import Mathlib

/-!
Verification development for the jsonreststores2 repository.

The repository contains three generations of the same store class:
  * `src/JsonRestStores-BEFORE.js` — the callback-style original, which holds the
    declarative query-condition resolver (`_resolveQueryConditions` with its inner
    `visitQueryConditions` / `goThroughArgs` workers, lines 386-571);
  * `src/JsonRestStores.js` — the intermediate async rewrite (permission proxy,
    uniqueness checks, `_makePost`);
  * `src/jsonreststores.js` — the current slim rewrite (the five `_make*` pipelines).

This file gives a shallow embedding of those parts, faithful to the JavaScript:
JS objects used as string maps become association lists (assignment shadows),
JS truthiness of strings is modelled explicitly (the empty string is falsy),
thrown errors become `Except` errors, and the sequence of collaborator calls made
by a pipeline is recorded as an explicit event trace.  User-overridable
collaborators (schema validation, persistence operations, permission checks) are
oracle functions stored in the store model.  The optional `if` predicate guard of
the resolver (an arbitrary user callback evaluated against the request) is
modelled by its boolean value at the current request (`Guards.ifP`), which is
faithful for the pure predicates the design assumes.  Default no-op hooks
(`beforeValidate`, `afterCheckPermissions`, ...) are empty in the source class
and are not modelled as separate events.
-/

namespace JRS

/-- A field-level error entry, as produced by schema validation
(`{ field: ..., message: ... }`). -/
structure FieldErr where
  field : String
  message : String
deriving DecidableEq

/-- Reading `obj[k]` on a JS object modelled as an association list
(first binding wins, so prepending models assignment shadowing). -/
def alookup (l : List (String × String)) (k : String) : Option String :=
  (l.find? (fun p => p.1 == k)).map (fun p => p.2)

/-- JS object assignment `obj[k] = v`: replace the binding if present, else append. -/
def aset (l : List (String × String)) (k v : String) : List (String × String) :=
  if (l.find? (fun p => p.1 == k)).isSome then
    l.map (fun p => if p.1 == k then (k, v) else p)
  else l ++ [(k, v)]

/-- JS truthiness of a string: only the empty string is falsy. -/
def strTruthy (s : String) : Bool := s != ""

/-- JS truthiness of a possibly-undefined string value. -/
def optTruthy : Option String → Bool
  | none => false
  | some s => strTruthy s

/-- The JS idiom `o.attr || dflt` on an optional string attribute:
an absent or empty string falls back to the default. -/
def jsOr (a : Option String) (dflt : String) : String :=
  match a with
  | some s => if s = "" then dflt else s
  | none => dflt

/-- Worker for `jsSplit`: scan the character list left to right; on a separator
match emit the accumulated token and skip the separator's remaining characters
(`n` counts characters of a matched separator still to be consumed). -/
def jsSplitAux (sep : List Char) : List Char → Nat → List Char → List (List Char)
  | [], _, cur => [cur.reverse]
  | a :: rest, n+1, cur =>
    let _ := a
    jsSplitAux sep rest n cur
  | a :: rest, 0, cur =>
    if sep.isPrefixOf (a :: rest) then
      cur.reverse :: jsSplitAux sep rest (sep.length - 1) []
    else jsSplitAux sep rest 0 (a :: cur)

/-- JS `s.split(sep)` for a string separator: greedy left-to-right scan,
consuming each separator occurrence.  The resolver always passes a non-empty
separator (the `|| ' '` and `','` call sites), so the empty-separator case is
unreachable there. -/
def jsSplit (s sep : String) : List String :=
  match sep.data with
  | [] => [s]
  | _ => (jsSplitAux sep.data s.data 0 []).map (fun cs => String.mk cs)

/-!
## The condition resolver (`src/JsonRestStores-BEFORE.js`, lines 386-571)

`_resolveQueryConditions(queryConditions, conditionsHash, allowedFields, request)`
first rebinds `conditionsHash` and `allowedFields` to deep copies
(`JSON.parse(JSON.stringify(...))`, lines 393-394) and then runs the recursive
`visitQueryConditions` worker, which mutates those copies (the `each` branch
injects synthetic bindings that stay visible for the rest of the traversal).
The embedding threads that mutable pair as an explicit `RState`.
-/

/-- The traversal state: the (copied) `conditionsHash` object and the (copied)
`allowedFields` object.  `allowedFields` values are always truthy in the source
(schema field descriptors or `true`), so membership of the key is all that the
code can observe of it. -/
structure RState where
  ch : List (String × String)
  af : List String
deriving DecidableEq

/-- Membership test `allowedFields[k]` (truthy iff the key is present). -/
def afHas (af : List String) (k : String) : Bool := af.contains k

/-- The conditional-inclusion guards a template node may carry.  `ifP` is the
boolean the optional `o.if` user predicate returns for the current request
(`none` when no predicate is attached). -/
structure Guards where
  ifDefined : Option String := none
  ifNotDefined : Option String := none
  ifP : Option Bool := none
deriving DecidableEq

/-- Guard evaluation, lines 445-466: `ifDefined` (comma-separated list, all
fields must be defined in `conditionsHash`), then `ifNotDefined` (none may be
defined), then the `if` predicate.  A guard that is absent or an empty string is
skipped (`o.ifDefined && typeof o.ifDefined === 'string'`). -/
def guardsPass (g : Guards) (ch : List (String × String)) : Bool :=
  (match g.ifDefined with
   | some s => if s = "" then true else (jsSplit s ",").all (fun f => (alookup ch f).isSome)
   | none => true)
  &&
  (match g.ifNotDefined with
   | some s => if s = "" then true else (jsSplit s ",").all (fun f => (alookup ch f).isNone)
   | none => true)
  &&
  (match g.ifP with
   | some b => b
   | none => true)

/-- A leaf's second argument: a plain value or an array of values (line 528). -/
inductive Arg1 where
  | single (v : String)
  | arr (vs : List String)
deriving DecidableEq

/-- The logical operator of a composite node.  The source dispatches on the
`type` string being exactly `'and'` or `'or'`. -/
inductive LOp where
  | andOp
  | orOp
deriving DecidableEq

/-- The `type` string the operator stands for. -/
def LOp.str : LOp → String
  | .andOp => "and"
  | .orOp => "or"

/-- A static condition-template node.  The source dispatches on `o.type`:
`'and'`/`'or'` are composites over `o.args`, `'each'` is the fan-out node
(`value`, `separator`, `linkType`, `as` attributes plus `o.args`), and any other
type is a leaf `{ op, args: [field, value?] }`.  A `leaf` constructor therefore
stands for a node whose `type` is none of `and`/`or`/`each`. -/
inductive QCond where
  | leaf (g : Guards) (type : String) (arg0 : String) (arg1 : Option Arg1)
  | logic (g : Guards) (op : LOp) (args : List QCond)
  | each (g : Guards) (value : String) (separator : Option String)
      (linkType : Option String) (asName : Option String) (args : List QCond)

/-- The guards of a node (read before the type dispatch, lines 445-466). -/
def QCond.guards : QCond → Guards
  | .leaf g _ _ _ => g
  | .logic g _ _ => g
  | .each g _ _ _ _ _ => g

/-- Whether the collapse rule of `goThroughArgs` applies to this child:
`queryCondition.type === 'and' || ... 'or' || ... 'each'` (line 419). -/
def QCond.isCompositeType : QCond → Bool
  | .leaf _ _ _ _ => false
  | .logic _ _ _ => true
  | .each _ _ _ _ _ _ => true

/-- The non-`type`/`args` keys the composite and `each` branches copy onto the
result object (`for kk in o ... fc[kk] = o[kk]`, lines 471-472 and 482-483). -/
structure NodeExtra where
  guards : Guards := {}
  value : Option String := none
  separator : Option String := none
  linkType : Option String := none
  asName : Option String := none
deriving DecidableEq

/-- The extra keys copied off an `and`/`or` node. -/
def logicExtra (g : Guards) : NodeExtra := { guards := g }

/-- The extra keys copied off an `each` node. -/
def eachExtra (g : Guards) (value : String) (sep lt asn : Option String) : NodeExtra :=
  { guards := g, value := some value, separator := sep, linkType := lt, asName := asn }

/-- A resolved condition-tree node, mirroring the objects `visitQueryConditions`
builds into its `fc` out-parameter: composite results carry the copied extra
keys, a `type` and resolved `args`; a unary leaf keeps its single argument
(lines 519-523); a binary leaf carries the field and the resolved value
(lines 553-554). -/
inductive RNode where
  | node (extra : NodeExtra) (type : String) (args : List RNode)
  | leaf1 (type : String) (arg0 : String)
  | leaf2 (type : String) (arg0 : String) (arg1 : Arg1)

/-- Does a string have the substitution form `#...#` (regex `^#(.*?)#$`,
line 533)?  The lazy group backtracks to the final `#`, so the test is: at
least two characters, starting and ending with `#`. -/
def isSubstRef (s : String) : Bool :=
  s.data.length ≥ 2 && s.data.head? == some '#' && s.data.getLast? == some '#'

/-- The field named by a substitution reference (the regex capture group:
everything between the outer `#`s). -/
def substField (s : String) : String := String.mk ((s.data.drop 1).dropLast)

/-- The configuration error thrown for a reference to a field missing from
`allowedFields` (line 538). -/
def substitutionError (arg : String) : String :=
  "Searched for " ++ arg ++ ", but didn't find corresponding entry in onlineSearchSchema"

/-- Resolution of a leaf's source arguments (the `for` loop of lines 531-551):
a `#field#` reference must name an allowed field (otherwise a configuration
error is thrown); a reference whose field has no value in `conditionsHash`
drops the whole leaf immediately (`.ok none`); a literal is kept unchanged. -/
def resolveArgs (af : List String) (ch : List (String × String)) :
    List String → Except String (Option (List String))
  | [] => .ok (some [])
  | arg :: rest =>
    if isSubstRef arg then
      let osf := substField arg
      if !(afHas af osf) then .error (substitutionError arg)
      else
        match alookup ch osf with
        | some v =>
          match resolveArgs af ch rest with
          | .error e => .error e
          | .ok none => .ok none
          | .ok (some rs) => .ok (some (v :: rs))
        | none => .ok none
    else
      match resolveArgs af ch rest with
      | .error e => .error e
      | .ok none => .ok none
      | .ok (some rs) => .ok (some (arg :: rs))

mutual

/-- The recursive worker `visitQueryConditions(o, fc)` (lines 398-557).
`.ok (none, st)` models `return false` (the node is dropped);
`.ok (some r, st)` models a normal return with `fc` filled in as `r`.
A thrown error propagates as `.error`. -/
def visitQueryConditions (o : QCond) (st : RState) :
    Except String (Option RNode × RState) :=
  if guardsPass o.guards st.ch then
    match o with
    | .logic g op args =>
      -- lines 470-477: copy extra keys, set type, resolve children into fc.args
      match goThroughArgs args st [] with
      | .error e => .error e
      | .ok (cs, st') => .ok (some (.node (logicExtra g) op.str cs), st')
    | .each g value sep lt asn args =>
      -- lines 481-508: copy extra keys; fc.type becomes linkType || 'and';
      -- nothing to do when the source field has no (truthy) value;
      -- otherwise split on separator || ' ' and run goThroughArgs per token
      let fcType := jsOr lt "and"
      let extra := eachExtra g value sep lt asn
      if optTruthy (alookup st.ch value) then
        let allValues := jsSplit ((alookup st.ch value).getD "") (jsOr sep " ")
        let k := jsOr asn (value ++ "Each")
        match goThroughArgsEach allValues k args st [] with
        | .error e => .error e
        | .ok (cs, st') => .ok (some (.node extra fcType cs), st')
      else .ok (some (.node extra fcType []), st)
    | .leaf g t a0 arg1? =>
      -- lines 514-555; g is carried by the guard check above
      let _ := g
      match arg1? with
      | none => .ok (some (.leaf1 t a0), st)
      | some (.single v) =>
        match resolveArgs st.af st.ch [v] with
        | .error e => .error e
        | .ok none => .ok (none, st)
        | .ok (some rs) => .ok (some (.leaf2 t a0 (.single (rs.headD ""))), st)
      | some (.arr vs) =>
        match resolveArgs st.af st.ch vs with
        | .error e => .error e
        | .ok none => .ok (none, st)
        | .ok (some rs) => .ok (some (.leaf2 t a0 (.arr rs)), st)
  else .ok (none, st)
termination_by (sizeOf o, 0)
decreasing_by
  all_goals simp_wf
  all_goals simp_arith [Prod.lex_def]

/-- The inner `goThroughArgs` loop (lines 402-443): resolve each child in turn,
skip children that drop, and apply the collapse rule to `and`/`or`/`each`
children — zero resolved grandchildren: omit; exactly one: push that grandchild
directly; two or more: push the composite. -/
def goThroughArgs (cs : List QCond) (st : RState) (acc : List RNode) :
    Except String (List RNode × RState) :=
  match cs with
  | [] => .ok (acc, st)
  | c :: rest =>
    match visitQueryConditions c st with
    | .error e => .error e
    | .ok (none, st') => goThroughArgs rest st' acc
    | .ok (some r, st') =>
      if c.isCompositeType then
        match r with
        | .node ex t rargs =>
          match rargs with
          | [] => goThroughArgs rest st' acc
          | [x] => goThroughArgs rest st' (acc ++ [x])
          | _ => goThroughArgs rest st' (acc ++ [.node ex t rargs])
        | _ => goThroughArgs rest st' (acc ++ [r]) -- unreachable: composites resolve to .node
      else goThroughArgs rest st' (acc ++ [r])
termination_by (sizeOf cs, 0)
decreasing_by
  all_goals simp_wf
  all_goals simp_arith [Prod.lex_def]

/-- The `allValues.forEach` loop of the `each` branch (lines 498-508): for every
token, assign the synthetic binding into `conditionsHash` and `allowedFields`
(visible from here on) and run `goThroughArgs` over the nested template. -/
def goThroughArgsEach (toks : List String) (k : String) (args : List QCond)
    (st : RState) (acc : List RNode) : Except String (List RNode × RState) :=
  match toks with
  | [] => .ok (acc, st)
  | tok :: rest =>
    let st1 : RState := ⟨(k, tok) :: st.ch, k :: st.af⟩
    match goThroughArgs args st1 acc with
    | .error e => .error e
    | .ok (acc', st') => goThroughArgsEach rest k args st' acc'
termination_by (sizeOf args, toks.length)
decreasing_by
  all_goals simp_wf
  all_goals simp_arith [Prod.lex_def]

end

/-- The entry point `_resolveQueryConditions` (lines 388-571): run the worker on
(copies of) the inputs, then apply the top-level collapse: an `and`/`or` result
with no arguments becomes the empty condition (`.ok none`, the `{}` object), one
with a single argument becomes that argument, anything else is returned as is.
A dropped root leaves `res` as the initial `{}` (also `.ok none`). -/
def _resolveQueryConditions (queryConditions : QCond)
    (conditionsHash : List (String × String)) (allowedFields : List String) :
    Except String (Option RNode) :=
  match visitQueryConditions queryConditions ⟨conditionsHash, allowedFields⟩ with
  | .error e => .error e
  | .ok (res?, _) =>
    match res? with
    | none => .ok none
    | some res =>
      match res with
      | .node ex t args =>
        if t = "and" || t = "or" then
          match args with
          | [] => .ok none
          | [a] => .ok (some a)
          | _ => .ok (some (.node ex t args))
        else .ok (some (.node ex t args))
      | r => .ok (some r)

/-- `_resolveQueryConditions` together with the caller-visible values of the two
argument objects after the call.  Lines 393-394 rebind both parameters to deep
copies before any write, so every mutation performed by the traversal targets
the private copies and the caller's objects are returned unchanged. -/
def resolveFull (queryConditions : QCond)
    (conditionsHash : List (String × String)) (allowedFields : List String) :
    Except String (Option RNode) × List (String × String) × List String :=
  (_resolveQueryConditions queryConditions conditionsHash allowedFields,
   conditionsHash, allowedFields)

/-!
## The current request pipelines (`src/jsonreststores.js`)

One straight-line async function per verb (`_makePost`, `_makePut`, `_makeGet`,
`_makeGetQuery`, `_makeDelete`, lines 355-561).  Thrown errors become `Except`
errors; the sequence of collaborator invocations is recorded as an event trace,
so ordering claims ("the permission check runs after the probe and before the
insert") are statements about that trace.  Overridable collaborators are oracle
functions carried by the store value; documents are an arbitrary type `D`.
-/

namespace Cur

/-- The options object handed to `schema.validate`
(`{ onlyObjectValues, skipFields }`). -/
structure VOpts where
  onlyObjectValues : Bool := false
  skipFields : List String := []
deriving DecidableEq

/-- The HTTP-error taxonomy raised by the pipelines, plus `jsError` for plain
`throw new Error(...)`. -/
inductive Err where
  | notImplemented
  | badRequest (errors : List FieldErr)
  | unprocessableEntity (errors : List FieldErr)
  | forbidden (message : Option String)
  | notFound
  | jsError (msg : String)
deriving DecidableEq

/-- One collaborator invocation performed by a pipeline run. -/
inductive Ev where
  | checkParamIds
  | validate
  | fetchOne
  | checkPermissions (method : String)
  | insert
  | update
  | deleteRecord
  | query
  | reposition (whereArg : String) (beforeId : Option String)
deriving DecidableEq

/-- Verb-specific request options (`request.options`). -/
structure ReqOptions where
  putBefore : Option String := none
  putDefaultPosition : Option String := none
  conditionsHash : List (String × String) := []
deriving DecidableEq

/-- The per-call request context.  `putNew` / `putExisting` start unset (JS
`undefined`, falsy). -/
structure Req (D : Type) where
  remote : Bool
  params : List (String × String) := []
  body : List (String × String) := []
  options : ReqOptions := {}
  doc : Option D := none
  putNew : Bool := false
  putExisting : Bool := false
  bodyBeforeValidation : List (String × String) := []

/-- The store: configuration flags plus the overridable collaborators as
oracles.  `checkPermissions` defaults to always granting
(`return { granted: true }`, line 138); `schemaHasField` models membership in
`schema.structure`. -/
structure Store (D : Type) where
  handlePut : Bool := false
  handlePost : Bool := false
  handleGet : Bool := false
  handleGetQuery : Bool := false
  handleDelete : Bool := false
  positioning : Bool := false
  paramIds : List String := []
  idProperty : String := "id"
  schemaHasField : String → Bool := fun _ => true
  schemaValidate : List (String × String) → VOpts → List (String × String) × List FieldErr
  checkPermissions : Req D → String → Bool × Option String := fun _ _ => (true, none)
  implementFetchOne : Req D → Option D
  implementInsert : Req D → D
  implementUpdate : Req D → D
  implementDelete : Req D → Option D
  implementQuery : Req D → List D

variable {D : Type}

/-- `_checkParamIds(request, skipIdProperty)` (lines 300-341).  The source's
`request.params.length === 0` early exit never fires: `params` is a plain
object, whose `length` is `undefined`, so it is not modelled.  All `paramIds`
must be in the schema (a plain thrown `Error` otherwise); a remote request must
supply every paramId except, when `skipIdProperty`, the id property
(`BadRequest` otherwise); finally the params are validated
(`BadRequest` on errors) and replaced by the validated object. -/
def _checkParamIds (s : Store D) (r : Req D) (skipIdProperty : Bool) :
    Except Err (Req D) :=
  if !(s.paramIds.all s.schemaHasField) then
    .error (.jsError "This paramId must be in schema")
  else
    let fieldErrors :=
      if r.remote then
        (s.paramIds.filter (fun k =>
          !(skipIdProperty && k == s.idProperty) && (alookup r.params k).isNone)).map
          (fun k => ⟨k, "Field required in the URL: " ++ k⟩)
      else []
    if fieldErrors ≠ [] then .error (.badRequest fieldErrors)
    else
      let skipFields := if skipIdProperty then [s.idProperty] else []
      let ve := s.schemaValidate r.params { onlyObjectValues := true, skipFields := skipFields }
      if ve.2 ≠ [] then .error (.badRequest ve.2)
      else .ok { r with params := ve.1 }

/-- `_enrichBodyWithParamIdsIfRemote` (lines 343-353): on remote requests, copy
each paramId present in `params` into `body`. -/
def _enrichBodyWithParamIdsIfRemote (s : Store D) (r : Req D) : Req D :=
  if r.remote then
    { r with body := s.paramIds.foldl (fun b k =>
        match alookup r.params k with
        | some v => aset b k v
        | none => b) r.body }
  else r

/-- `_repositionBasedOnOptions(fullDoc, putBefore, putDefaultPosition, existing)`
(lines 264-281), as the reposition events it performs: nothing unless the store
has positioning; `putBefore` wins; else an explicit default position; else a new
record goes to the end; else nothing. -/
def _repositionBasedOnOptions (s : Store D) (fullDoc : Option D)
    (putBefore putDefaultPosition : Option String) (existing : Bool) : List Ev :=
  let _ := fullDoc
  if !s.positioning then []
  else if optTruthy putBefore then [.reposition "before" putBefore]
  else if optTruthy putDefaultPosition then [.reposition (putDefaultPosition.getD "") none]
  else if !existing then [.reposition "end" none]
  else []

/-- `_makePost` (lines 355-399): handle-flag gate, id check, body enrichment,
schema validation, permission check, insert, reposition (as a new record),
return the inserted document. -/
def _makePost (s : Store D) (req0 : Req D) : List Ev × Except Err (Option D) :=
  let r := { req0 with doc := none }
  if !s.handlePost && r.remote then ([], .error .notImplemented)
  else
    match _checkParamIds s r true with
    | .error e => ([.checkParamIds], .error e)
    | .ok r1 =>
      let r2 := _enrichBodyWithParamIdsIfRemote s r1
      let ve := s.schemaValidate r2.body { skipFields := [s.idProperty] }
      let r3 := { r2 with bodyBeforeValidation := r2.body, body := ve.1 }
      if ve.2 ≠ [] then
        ([.checkParamIds, .validate], .error (.unprocessableEntity ve.2))
      else
        let pm := s.checkPermissions r3 "post"
        if !pm.1 then
          ([.checkParamIds, .validate, .checkPermissions "post"],
           .error (.forbidden pm.2))
        else
          let r4 := { r3 with doc := some (s.implementInsert r3) }
          ([.checkParamIds, .validate, .checkPermissions "post", .insert] ++
             _repositionBasedOnOptions s r4.doc r4.options.putBefore
               r4.options.putDefaultPosition false,
           .ok r4.doc)

/-- The enrichment-and-validation slice of `_makePut` (lines 415-424): enrich
the body, run `schema.validate(request.body)`, save `bodyBeforeValidation`,
replace the body with the validated object; the field errors are returned
alongside for the caller's `if (errors.length)` check. -/
def validatedPutReq (s : Store D) (r1 : Req D) : Req D × List FieldErr :=
  let r2 := _enrichBodyWithParamIdsIfRemote s r1
  let ve := s.schemaValidate r2.body {}
  ({ r2 with bodyBeforeValidation := r2.body, body := ve.1 }, ve.2)

/-- The fetch-one probe slice of `_makePut` (lines 426-432): fetch, store the
result in `request.doc`, and set `putNew = !request.doc`,
`putExisting = !!request.doc`. -/
def probedPutReq (s : Store D) (r3 : Req D) : Req D :=
  let probe := s.implementFetchOne r3
  { r3 with doc := probe, putNew := probe.isNone, putExisting := probe.isSome }

/-- `_makePut` (lines 401-460): handle-flag gate, id check, body enrichment,
schema validation, then the fetch-one probe; `putNew`/`putExisting` are set from
the probe's emptiness; the permission check runs next; `if (!request.doc)`
decides between insert and update; reposition runs with
`existing = !!request.putExisting`. -/
def _makePut (s : Store D) (req0 : Req D) : List Ev × Except Err (Option D) :=
  let r := { req0 with doc := none }
  if !s.handlePut && r.remote then ([], .error .notImplemented)
  else
    match _checkParamIds s r true with
    | .error e => ([.checkParamIds], .error e)
    | .ok r1 =>
      let vp := validatedPutReq s r1
      if vp.2 ≠ [] then
        ([.checkParamIds, .validate], .error (.unprocessableEntity vp.2))
      else
        let r4 := probedPutReq s vp.1
        let pm := s.checkPermissions r4 "put"
        if !pm.1 then
          ([.checkParamIds, .validate, .fetchOne, .checkPermissions "put"],
           .error (.forbidden pm.2))
        else
          match r4.doc with
          | none =>
            let r5 := { r4 with doc := some (s.implementInsert r4) }
            ([.checkParamIds, .validate, .fetchOne, .checkPermissions "put", .insert] ++
               _repositionBasedOnOptions s r5.doc r5.options.putBefore
                 r5.options.putDefaultPosition r4.putExisting,
             .ok r5.doc)
          | some _ =>
            let r5 := { r4 with doc := some (s.implementUpdate r4) }
            ([.checkParamIds, .validate, .fetchOne, .checkPermissions "put", .update] ++
               _repositionBasedOnOptions s r5.doc r5.options.putBefore
                 r5.options.putDefaultPosition r4.putExisting,
             .ok r5.doc)

/-- `_makeGet` (lines 462-490): handle-flag gate, id check, fetch-one, then the
permission check, then return `request.doc`.  Note: the source never tests the
fetched document for absence — there is no `NotFound` branch. -/
def _makeGet (s : Store D) (req0 : Req D) : List Ev × Except Err (Option D) :=
  let r := { req0 with doc := none }
  if !s.handleGet && r.remote then ([], .error .notImplemented)
  else
    match _checkParamIds s r true with
    | .error e => ([.checkParamIds], .error e)
    | .ok r1 =>
      let r2 := { r1 with doc := s.implementFetchOne r1 }
      let pm := s.checkPermissions r2 "get"
      if !pm.1 then
        ([.checkParamIds, .fetchOne, .checkPermissions "get"], .error (.forbidden pm.2))
      else
        ([.checkParamIds, .fetchOne, .checkPermissions "get"], .ok r2.doc)

/-- `_makeGetQuery` (lines 492-526): the handle gate tests `handleGet` (line
499), not `handleGetQuery`; id check; `schema.validate(request.params,
onlyObjectValues)` whose result becomes `options.conditionsHash` (`BadRequest`
on errors); permission check; query. -/
def _makeGetQuery (s : Store D) (req0 : Req D) : List Ev × Except Err (List D) :=
  let r := { req0 with doc := none }
  if !s.handleGet && r.remote then ([], .error .notImplemented)
  else
    match _checkParamIds s r true with
    | .error e => ([.checkParamIds], .error e)
    | .ok r1 =>
      let ve := s.schemaValidate r1.params { onlyObjectValues := true }
      if ve.2 ≠ [] then
        ([.checkParamIds, .validate], .error (.badRequest ve.2))
      else
        let r2 := { r1 with options := { r1.options with conditionsHash := ve.1 } }
        let pm := s.checkPermissions r2 "getQuery"
        if !pm.1 then
          ([.checkParamIds, .validate, .checkPermissions "getQuery"],
           .error (.forbidden pm.2))
        else
          ([.checkParamIds, .validate, .checkPermissions "getQuery", .query],
           .ok (s.implementQuery r2))

/-- `_makeDelete` (lines 528-561): handle-flag gate, id check, fetch-one,
permission check, then `implementDelete` — whose return value is discarded —
and finally return `request.doc` (the fetched record).  As in `_makeGet`, an
absent document is never turned into `NotFound`. -/
def _makeDelete (s : Store D) (req0 : Req D) : List Ev × Except Err (Option D) :=
  let r := { req0 with doc := none }
  if !s.handleDelete && r.remote then ([], .error .notImplemented)
  else
    match _checkParamIds s r true with
    | .error e => ([.checkParamIds], .error e)
    | .ok r1 =>
      let r2 := { r1 with doc := s.implementFetchOne r1 }
      let pm := s.checkPermissions r2 "delete"
      if !pm.1 then
        ([.checkParamIds, .fetchOne, .checkPermissions "delete"],
         .error (.forbidden pm.2))
      else
        let _ := s.implementDelete r2
        ([.checkParamIds, .fetchOne, .checkPermissions "delete", .deleteRecord],
         .ok r2.doc)

end Cur

/-!
## The intermediate store (`src/JsonRestStores.js`)

This generation carries the permission proxy (`_checkPermissionsProxy`,
lines 339-344), the uniqueness checks (`_isFieldUnique` / `_areFieldsUnique`,
lines 424-476) and the async `_makePost` (lines 478-593), modelled here up to
the insert.  The stock `checkPermissions` of this class returns the bare
boolean `true` (line 112), not a `{ granted }` object; the pipeline
destructures whatever comes back (`var { granted, message } = ...`, line 557),
and reading `.granted` off a boolean yields `undefined` — modelled by
`PermRes.granted`. -/

namespace Mid

/-- What a `checkPermissions` implementation (or the proxy) returns: the bare
boolean of the stock implementation and of the local-request short-circuit, or
a proper `{ granted, message }` object. -/
inductive PermRes where
  | plain (b : Bool)
  | obj (granted : Bool) (message : Option String)
deriving DecidableEq

/-- JS destructuring `{ granted } = res`: a property read off a boolean is
`undefined` (falsy); off an object it is the stored value. -/
def PermRes.granted : PermRes → Bool
  | .plain _ => false
  | .obj g _ => g

/-- JS destructuring `{ message } = res`. -/
def PermRes.message : PermRes → Option String
  | .plain _ => none
  | .obj _ m => m

/-- The options object of this generation's `schema.validate`
(`{ onlyObjectValues, skipParams, skipCast }`). -/
structure VOpts where
  onlyObjectValues : Bool := false
  skipParams : List (String × List String) := []
  skipCast : List String := []
deriving DecidableEq

/-- A schema field descriptor, as far as `_makePost` reads it. -/
structure MidField where
  isProtected : Bool := false
  unique : Bool := false
  uniqueMessage : Option String := none
deriving DecidableEq

/-- The conditions object `_isFieldUnique` hands to `dbLayer.select`
(lines 427-448). -/
inductive UCond where
  | op (type : String) (field value : String)
  | andC (args : List UCond)

/-- The result object of `_areFieldsUnique`. -/
structure UniqueRes where
  allUnique : Bool
  errors : List FieldErr
deriving DecidableEq

/-- One collaborator invocation performed by this generation's `_makePost`. -/
inductive Ev where
  | checkParamIds
  | validate
  | uniqueCheck
  | checkPermissions (method : String)
  | insert
  | reposition (whereArg : String) (beforeId : Option String)
deriving DecidableEq

/-- The request context of this generation.  `bodyComputed` is the optional
object marking protected fields as computed upstream (`none` models the
attribute being absent). -/
structure Req (D : Type) where
  remote : Bool
  params : List (String × String) := []
  body : List (String × String) := []
  bodyComputed : Option (List String) := none
  options : Cur.ReqOptions := {}
  doc : Option D := none
  bodyBeforePrepare : List (String × String) := []
  bodyBeforeValidation : List (String × String) := []

/-- The store model: flags, the schema structure (with `protected` / `unique`
markings), and the oracles for schema validation, cleanup, id generation,
permissions, the database layer consulted by the uniqueness check, and the
insert operation. -/
structure Store (D : Type) where
  handlePost : Bool := false
  position : Bool := false
  paramIds : List String := []
  idProperty : String := "id"
  schemaStructure : List (String × MidField) := []
  schemaValidate : List (String × String) → VOpts → List (String × String) × List FieldErr
  schemaCleanup : List (String × String) → List (String × String) := id
  makeId : List (String × String) → Option String := fun _ => none
  checkPermissions : Req D → String → PermRes := fun _ _ => .plain true
  dbSelectTotal : UCond → Nat
  implementInsert : Req D → Option String → D

variable {D : Type}

/-- `_checkPermissionsProxy` (lines 339-344): permissions are skipped entirely
for API (non-remote) requests — by returning the bare boolean `true`. -/
def _checkPermissionsProxy (s : Store D) (r : Req D) (method : String) : PermRes :=
  if !r.remote then .plain true
  else s.checkPermissions r method

/-- `_checkParamIds(request, skipIdProperty)` of this generation
(lines 253-296); as in the current file, the `request.params.length === 0`
early exit never fires on a plain object and is not modelled. -/
def _checkParamIds (s : Store D) (r : Req D) (skipIdProperty : Bool) :
    Except Cur.Err (Req D) :=
  if !(s.paramIds.all (fun k => (s.schemaStructure.find? (fun p => p.1 == k)).isSome)) then
    .error (.jsError "This paramId must be in schema")
  else
    let fieldErrors :=
      if r.remote then
        (s.paramIds.filter (fun k =>
          !(skipIdProperty && k == s.idProperty) && (alookup r.params k).isNone)).map
          (fun k => ⟨k, "Field required in the URL: " ++ k⟩)
      else []
    if fieldErrors ≠ [] then .error (.badRequest fieldErrors)
    else
      let opts : VOpts :=
        { onlyObjectValues := true,
          skipParams := if skipIdProperty then [(s.idProperty, ["required"])] else [],
          skipCast := if skipIdProperty then [s.idProperty] else [] }
      let ve := s.schemaValidate r.params opts
      if ve.2 ≠ [] then .error (.badRequest ve.2)
      else .ok { r with params := ve.1 }

/-- `_enrichBodyWithParamIdsIfRemote` (lines 346-356). -/
def _enrichBodyWithParamIdsIfRemote (s : Store D) (r : Req D) : Req D :=
  if r.remote then
    { r with body := s.paramIds.foldl (fun b k =>
        match alookup r.params k with
        | some v => aset b k v
        | none => b) r.body }
  else r

/-- `_isFieldUnique(field, value, id)` (lines 424-453): build an `eq` condition
on the field (adding a `ne` on the id property when an id is given), run
`dbLayer.select`, and report unique iff the total is zero. -/
def _isFieldUnique (s : Store D) (field value : String) (id : Option String) : Bool :=
  let conditions :=
    match id with
    | some i => UCond.andC [.op "eq" field value, .op "ne" s.idProperty i]
    | none => UCond.op "eq" field value
  if s.dbSelectTotal conditions ≠ 0 then false else true

/-- The fields of `self._uniqueFields` (built by the constructor from schema
fields flagged `unique`), in schema order. -/
def uniqueFields (s : Store D) : List String :=
  (s.schemaStructure.filter (fun p => p.2.unique)).map (fun p => p.1)

/-- The per-field uniqueness message
(`schema.structure[field].uniqueMessage || 'Field already in database'`). -/
def uniqueMessageFor (s : Store D) (field : String) : String :=
  match (s.schemaStructure.find? (fun p => p.1 == field)).map (fun p => p.2.uniqueMessage) with
  | some (some m) => m
  | _ => "Field already in database"

/-- `_areFieldsUnique(id, body)` (lines 455-476): walk every unique field,
skipping absent or empty body values; a conflict appends a
`{ field, message }` entry.  With no conflicts the result is
`{ allUnique: true }`.  NOTE the source's error branch (line 475) also returns
`allUnique: true` — its own comment says it should return `false` — and that
behaviour is reproduced here. -/
def _areFieldsUnique (s : Store D) (id : Option String) (body : List (String × String)) :
    UniqueRes :=
  let errors := (uniqueFields s).foldl (fun errs field =>
    match alookup body field with
    | none => errs
    | some v =>
      if v = "" then errs
      else if _isFieldUnique s field v id then errs
      else errs ++ [⟨field, uniqueMessageFor s field⟩]) []
  if errors = [] then { allUnique := true, errors := [] }
  else { allUnique := true, errors := errors }

/-- `_repositionBasedOnOptions` of this generation (lines 220-237; it tests
`this.position`). -/
def _repositionBasedOnOptions (s : Store D) (putBefore putDefaultPosition : Option String)
    (existing : Bool) : List Ev :=
  if !s.position then []
  else if optTruthy putBefore then [.reposition "before" putBefore]
  else if optTruthy putDefaultPosition then [.reposition (putDefaultPosition.getD "") none]
  else if !existing then [.reposition "end" none]
  else []

/-- `_makePost` (lines 478-593), through the insert: handle gate, id check,
early deletion of protected fields (unless `bodyComputed` is absent or marks
them), auto-lookup (a no-op with the default empty `autoLookup` table),
`prepareBody` (identity by default), body enrichment, `_children` removal,
schema validation (`UnprocessableEntity` on errors), removal of protected
fields the validation defaulted in, the uniqueness gate, the permission gate
through `_checkPermissionsProxy` with JS destructuring of its result, cleanup,
id generation and insert, then reposition as a new record. -/
def _makePost (s : Store D) (req0 : Req D) : List Ev × Except Cur.Err D :=
  if !s.handlePost && req0.remote then ([], .error .notImplemented)
  else
    match _checkParamIds s req0 true with
    | .error e => ([.checkParamIds], .error e)
    | .ok r1 =>
      let protectedFields := (s.schemaStructure.filter (fun p => p.2.isProtected)).map (fun p => p.1)
      let r2 := { r1 with body := r1.body.filter (fun p =>
          !(protectedFields.contains p.1 &&
            (match r1.bodyComputed with
             | some comp => !comp.contains p.1
             | none => false))) }
      let r3 := { r2 with bodyBeforePrepare := r2.body }
      let r4 := _enrichBodyWithParamIdsIfRemote s r3
      let r5 := { r4 with body := r4.body.filter (fun p => p.1 != "_children") }
      let changedBodyFields := protectedFields.filter (fun f => (alookup r5.body f).isSome)
      let ve := s.schemaValidate r5.body
        { skipParams := [(s.idProperty, ["required"])], skipCast := [s.idProperty] }
      if ve.2 ≠ [] then
        ([.checkParamIds, .validate], .error (.unprocessableEntity ve.2))
      else
        let validatedBody' := ve.1.filter (fun p =>
            !(protectedFields.contains p.1 && !changedBodyFields.contains p.1))
        let r6 := { r5 with bodyBeforeValidation := r5.body, body := validatedBody' }
        let un := _areFieldsUnique s none r6.body
        if !un.allUnique then
          ([.checkParamIds, .validate, .uniqueCheck],
           .error (.unprocessableEntity un.errors))
        else
          let pres := _checkPermissionsProxy s r6 "post"
          if !pres.granted then
            ([.checkParamIds, .validate, .uniqueCheck, .checkPermissions "post"],
             .error (.forbidden pres.message))
          else
            let r7 := { r6 with body := s.schemaCleanup r6.body }
            let forceId := s.makeId r7.body
            let doc := s.implementInsert r7 forceId
            ([.checkParamIds, .validate, .uniqueCheck, .checkPermissions "post", .insert] ++
               _repositionBasedOnOptions s r7.options.putBefore
                 r7.options.putDefaultPosition false,
             .ok doc)

end Mid

/-!
## Concrete instances used by the theorems below
-/

/-- Demo fan-out template: an `each` over field `words` with all defaults, whose
nested template is a single leaf substituting the synthetic binding. -/
def eachDemoTemplate : QCond :=
  .each {} "words" none none none [.leaf {} "eq" "word" (some (.single "#wordsEach#"))]

/-- The tree `eachDemoTemplate` resolves to when `words` is `"a b c"`: three
fan-out instances joined with the default `and`. -/
def eachDemoResolved : RNode :=
  .node (eachExtra {} "words" none none none) "and"
    [.leaf2 "eq" "word" (.single "a"), .leaf2 "eq" "word" (.single "b"),
     .leaf2 "eq" "word" (.single "c")]

/-- A composite template whose second child drops (its substitution field
`name` is allowed but has no filter value) and whose first child survives. -/
def c2DemoInner : QCond :=
  .logic {} .orOp
    [.leaf {} "eq" "name" (some (.single "#name#")),
     .leaf {} "eq" "surname" (some (.single "#surname#"))]

/-- The filter state for the `c2Demo` scenario. -/
def c2DemoState : RState := ⟨[("surname", "Mobily")], ["surname", "name"]⟩

/-- The single surviving resolved leaf of the `c2Demo` scenario. -/
def c2DemoResolved : RNode := .leaf2 "eq" "surname" (.single "Mobily")

/-- A minimal concrete store over `Nat` documents: every handle flag on, schema
validation passes values through unchanged, the data source holds no record,
permissions use the stock always-grant implementation. -/
def demoStore : Cur.Store Nat where
  handlePut := true
  handlePost := true
  handleGet := true
  handleGetQuery := true
  handleDelete := true
  paramIds := ["id"]
  idProperty := "id"
  schemaValidate := fun obj _ => (obj, [])
  implementFetchOne := fun _ => none
  implementInsert := fun _ => 1
  implementUpdate := fun _ => 2
  implementDelete := fun _ => none
  implementQuery := fun _ => []

/-- `demoStore` with a data source that does hold a record. -/
def demoStoreFound : Cur.Store Nat :=
  { demoStore with implementFetchOne := fun _ => some 5 }

/-- `demoStore` with every handle flag off. -/
def demoStoreNoFlags : Cur.Store Nat :=
  { demoStore with
    handleGet := false, handlePut := false, handlePost := false,
    handleGetQuery := false, handleDelete := false }

/-- A remote request for record id 1. -/
def demoReq : Cur.Req Nat := { remote := true, params := [("id", "1")] }

/-- Intermediate-generation demo store: one unique field `email`; the database
layer always reports a conflicting record for any uniqueness query. -/
def demoMidStore : Mid.Store Nat where
  handlePost := true
  paramIds := ["id"]
  idProperty := "id"
  schemaStructure := [("id", {}), ("email", { unique := true })]
  schemaValidate := fun obj _ => (obj, [])
  dbSelectTotal := fun _ => 1
  implementInsert := fun _ _ => 7

end JRS

/-!
## Theorems
-/

namespace JRS

theorem probedPutReq_doc {D : Type} (s : Cur.Store D) (r3 : Cur.Req D) :
    (Cur.probedPutReq s r3).doc = s.implementFetchOne r3 := rfl

theorem probedPutReq_putNew {D : Type} (s : Cur.Store D) (r3 : Cur.Req D) :
    (Cur.probedPutReq s r3).putNew = (s.implementFetchOne r3).isNone := rfl

theorem probedPutReq_putExisting {D : Type} (s : Cur.Store D) (r3 : Cur.Req D) :
    (Cur.probedPutReq s r3).putExisting = (s.implementFetchOne r3).isSome := rfl

/-- Claim C2: in the condition resolver, a composite (`and`/`or`) node resolves
each child independently, omitting children that drop; a composite child with
zero resolved grandchildren is omitted, with exactly one it is replaced by that
grandchild (the operator is elided), and with two or more the composite form is
kept; at the top level a root that collapses to nothing yields the empty
condition and a root that collapses to a single child yields that child
directly. -/
theorem c2_composite_collapse :
    (∀ (g : Guards) (op : LOp) (args : List QCond) (st : RState),
      guardsPass g st.ch = true →
      visitQueryConditions (.logic g op args) st =
        match goThroughArgs args st [] with
        | .error e => .error e
        | .ok p => .ok (some (.node (logicExtra g) op.str p.1), p.2)) ∧
    (∀ (c : QCond) (rest : List QCond) (st st' : RState) (acc : List RNode),
      visitQueryConditions c st = .ok (none, st') →
      goThroughArgs (c :: rest) st acc = goThroughArgs rest st' acc) ∧
    (∀ (g : Guards) (op : LOp) (cargs rest : List QCond) (st st' : RState)
        (acc : List RNode) (ex : NodeExtra) (t : String),
      visitQueryConditions (.logic g op cargs) st = .ok (some (.node ex t []), st') →
      goThroughArgs (.logic g op cargs :: rest) st acc = goThroughArgs rest st' acc) ∧
    (∀ (g : Guards) (op : LOp) (cargs rest : List QCond) (st st' : RState)
        (acc : List RNode) (ex : NodeExtra) (t : String) (x : RNode),
      visitQueryConditions (.logic g op cargs) st = .ok (some (.node ex t [x]), st') →
      goThroughArgs (.logic g op cargs :: rest) st acc =
        goThroughArgs rest st' (acc ++ [x])) ∧
    (∀ (g : Guards) (op : LOp) (cargs rest : List QCond) (st st' : RState)
        (acc : List RNode) (ex : NodeExtra) (t : String) (x₁ x₂ : RNode) (xs : List RNode),
      visitQueryConditions (.logic g op cargs) st =
          .ok (some (.node ex t (x₁ :: x₂ :: xs)), st') →
      goThroughArgs (.logic g op cargs :: rest) st acc =
        goThroughArgs rest st' (acc ++ [.node ex t (x₁ :: x₂ :: xs)])) ∧
    (∀ (qc : QCond) (ch : List (String × String)) (af : List String) (st' : RState),
      visitQueryConditions qc ⟨ch, af⟩ = .ok (none, st') →
      _resolveQueryConditions qc ch af = .ok none) ∧
    (∀ (qc : QCond) (ch : List (String × String)) (af : List String) (st' : RState)
        (ex : NodeExtra) (op : LOp),
      visitQueryConditions qc ⟨ch, af⟩ = .ok (some (.node ex op.str []), st') →
      _resolveQueryConditions qc ch af = .ok none) ∧
    (∀ (qc : QCond) (ch : List (String × String)) (af : List String) (st' : RState)
        (ex : NodeExtra) (op : LOp) (x : RNode),
      visitQueryConditions qc ⟨ch, af⟩ = .ok (some (.node ex op.str [x]), st') →
      _resolveQueryConditions qc ch af = .ok (some x)) ∧
    (∀ (qc : QCond) (ch : List (String × String)) (af : List String) (st' : RState)
        (ex : NodeExtra) (op : LOp) (x₁ x₂ : RNode) (xs : List RNode),
      visitQueryConditions qc ⟨ch, af⟩ =
          .ok (some (.node ex op.str (x₁ :: x₂ :: xs)), st') →
      _resolveQueryConditions qc ch af = .ok (some (.node ex op.str (x₁ :: x₂ :: xs)))) := by
  refine ⟨?_, ?_, ?_, ?_, ?_, ?_, ?_, ?_, ?_⟩
  · intro g op args st h
    rw [visitQueryConditions]
    simp only [QCond.guards, h, if_true]
    cases goThroughArgs args st [] with
    | error e => rfl
    | ok p => cases p; rfl
  · intro c rest st st' acc h
    rw [goThroughArgs]
    simp only [h]
  · intro g op cargs rest st st' acc ex t h
    rw [goThroughArgs]
    simp only [h, QCond.isCompositeType, if_true]
  · intro g op cargs rest st st' acc ex t x h
    rw [goThroughArgs]
    simp only [h, QCond.isCompositeType, if_true]
  · intro g op cargs rest st st' acc ex t x₁ x₂ xs h
    rw [goThroughArgs]
    simp only [h, QCond.isCompositeType, if_true]
  · intro qc ch af st' h
    rw [_resolveQueryConditions]
    simp only [h]
  · intro qc ch af st' ex op h
    rw [_resolveQueryConditions]
    simp only [h]
    cases op <;> simp [LOp.str]
  · intro qc ch af st' ex op x h
    rw [_resolveQueryConditions]
    simp only [h]
    cases op <;> simp [LOp.str]
  · intro qc ch af st' ex op x₁ x₂ xs h
    rw [_resolveQueryConditions]
    simp only [h]
    cases op <;> simp [LOp.str]

theorem c2_composite_collapse_witness :
    goThroughArgs [c2DemoInner] c2DemoState [] = .ok ([c2DemoResolved], c2DemoState) ∧
    _resolveQueryConditions (.logic {} .andOp [c2DemoInner]) [("surname", "Mobily")]
      ["surname", "name"] = .ok (some c2DemoResolved) := by
  have hinner : visitQueryConditions c2DemoInner c2DemoState =
      .ok (some (.node (logicExtra {}) "or" [c2DemoResolved]), c2DemoState) := by
    simp [visitQueryConditions, goThroughArgs, resolveArgs, guardsPass, alookup, afHas,
      isSubstRef, substField, c2DemoInner, c2DemoState, c2DemoResolved, logicExtra,
      QCond.guards, QCond.isCompositeType, LOp.str]
  constructor
  · have h4 := c2_composite_collapse.2.2.2.1 {} .orOp
      [.leaf {} "eq" "name" (some (.single "#name#")),
       .leaf {} "eq" "surname" (some (.single "#surname#"))]
      [] c2DemoState c2DemoState [] (logicExtra {}) "or" c2DemoResolved hinner
    exact h4.trans (by simp [goThroughArgs])
  · have hroot : visitQueryConditions (.logic {} .andOp [c2DemoInner])
        (⟨[("surname", "Mobily")], ["surname", "name"]⟩ : RState) =
        .ok (some (.node (logicExtra {}) "and" [c2DemoResolved]), c2DemoState) := by
      rw [c2_composite_collapse.1 {} .andOp [c2DemoInner]
        ⟨[("surname", "Mobily")], ["surname", "name"]⟩ (by rfl)]
      have hlist : goThroughArgs [c2DemoInner]
          (⟨[("surname", "Mobily")], ["surname", "name"]⟩ : RState) [] =
          .ok ([c2DemoResolved], c2DemoState) := by
        have h4 := c2_composite_collapse.2.2.2.1 {} .orOp
          [.leaf {} "eq" "name" (some (.single "#name#")),
           .leaf {} "eq" "surname" (some (.single "#surname#"))]
          [] c2DemoState c2DemoState [] (logicExtra {}) "or" c2DemoResolved hinner
        exact h4.trans (by simp [goThroughArgs])
      rw [hlist]
      simp [LOp.str]
    exact c2_composite_collapse.2.2.2.2.2.2.2.1 _ _ _ c2DemoState (logicExtra {})
      .andOp c2DemoResolved hroot

/-- Claim C3: a leaf whose value is a substitution reference to a field missing
from `allowedFields` makes resolution fail with a thrown configuration error;
a reference to an allowed field with no value in the filter hash drops the
whole leaf (and the dropped leaf is omitted by the enclosing composite); a
literal value is emitted unchanged; an allowed, present reference resolves to
the filter value. -/
theorem c3_leaf_substitution :
    (∀ (g : Guards) (t a0 v : String) (st : RState),
      guardsPass g st.ch = true → isSubstRef v = true →
      afHas st.af (substField v) = false →
      visitQueryConditions (.leaf g t a0 (some (.single v))) st =
        .error (substitutionError v)) ∧
    (∀ (g : Guards) (t a0 v : String) (st : RState),
      guardsPass g st.ch = true → isSubstRef v = true →
      afHas st.af (substField v) = true → alookup st.ch (substField v) = none →
      visitQueryConditions (.leaf g t a0 (some (.single v))) st = .ok (none, st)) ∧
    (∀ (g : Guards) (t a0 v : String) (st : RState) (rest : List QCond) (acc : List RNode),
      guardsPass g st.ch = true → isSubstRef v = true →
      afHas st.af (substField v) = true → alookup st.ch (substField v) = none →
      goThroughArgs (.leaf g t a0 (some (.single v)) :: rest) st acc =
        goThroughArgs rest st acc) ∧
    (∀ (g : Guards) (t a0 v : String) (st : RState),
      guardsPass g st.ch = true → isSubstRef v = false →
      visitQueryConditions (.leaf g t a0 (some (.single v))) st =
        .ok (some (.leaf2 t a0 (.single v)), st)) ∧
    (∀ (g : Guards) (t a0 v w : String) (st : RState),
      guardsPass g st.ch = true → isSubstRef v = true →
      afHas st.af (substField v) = true → alookup st.ch (substField v) = some w →
      visitQueryConditions (.leaf g t a0 (some (.single v))) st =
        .ok (some (.leaf2 t a0 (.single w)), st)) := by
  refine ⟨?_, ?_, ?_, ?_, ?_⟩
  · intro g t a0 v st hg hs hna
    rw [visitQueryConditions]
    simp only [QCond.guards, hg, if_true]
    rw [resolveArgs]
    simp [hs, hna]
  · intro g t a0 v st hg hs ha hch
    rw [visitQueryConditions]
    simp only [QCond.guards, hg, if_true]
    rw [resolveArgs]
    simp [hs, ha, hch]
  · intro g t a0 v st rest acc hg hs ha hch
    have hdrop : visitQueryConditions (.leaf g t a0 (some (.single v))) st =
        .ok (none, st) := by
      rw [visitQueryConditions]
      simp only [QCond.guards, hg, if_true]
      rw [resolveArgs]
      simp [hs, ha, hch]
    rw [goThroughArgs]
    simp only [hdrop]
  · intro g t a0 v st hg hs
    rw [visitQueryConditions]
    simp only [QCond.guards, hg, if_true]
    rw [resolveArgs]
    simp [hs, resolveArgs]
  · intro g t a0 v w st hg hs ha hch
    rw [visitQueryConditions]
    simp only [QCond.guards, hg, if_true]
    rw [resolveArgs]
    simp [hs, ha, hch, resolveArgs]

theorem c3_leaf_substitution_witness :
    visitQueryConditions (.leaf {} "eq" "name" (some (.single "#name#")))
      ⟨[], ["surname"]⟩ = .error (substitutionError "#name#") ∧
    visitQueryConditions (.leaf {} "eq" "surname" (some (.single "#surname#")))
      ⟨[], ["surname"]⟩ = .ok (none, ⟨[], ["surname"]⟩) ∧
    visitQueryConditions (.leaf {} "eq" "surname" (some (.single "Mobily")))
      ⟨[], ["surname"]⟩ =
      .ok (some (.leaf2 "eq" "surname" (.single "Mobily")), ⟨[], ["surname"]⟩) ∧
    visitQueryConditions (.leaf {} "eq" "surname" (some (.single "#surname#")))
      ⟨[("surname", "Mobily")], ["surname"]⟩ =
      .ok (some (.leaf2 "eq" "surname" (.single "Mobily")),
        ⟨[("surname", "Mobily")], ["surname"]⟩) :=
  ⟨c3_leaf_substitution.1 {} "eq" "name" "#name#" ⟨[], ["surname"]⟩ rfl rfl rfl,
   c3_leaf_substitution.2.1 {} "eq" "surname" "#surname#" ⟨[], ["surname"]⟩ rfl rfl rfl rfl,
   c3_leaf_substitution.2.2.2.1 {} "eq" "surname" "Mobily" ⟨[], ["surname"]⟩ rfl rfl,
   c3_leaf_substitution.2.2.2.2 {} "eq" "surname" "#surname#" "Mobily"
     ⟨[("surname", "Mobily")], ["surname"]⟩ rfl rfl rfl rfl⟩

/-- Claim C8: a fan-out (`each`) node splits the referenced field value on its
separator (default a single space) into tokens; each token is bound under the
`as` name (default the field name plus `Each`) in the working filter state
before the nested template is resolved against it; the results are combined
under `linkType` (default `and`) and collapse like any composite; a fan-out
whose source field has no value produces nothing; concretely, value `"a b c"`
with all defaults yields three resolved instances joined with `and`. -/
theorem c8_each_fanout :
    (∀ (g : Guards) (f : String) (sep lt asn : Option String) (args : List QCond)
        (st : RState),
      guardsPass g st.ch = true → optTruthy (alookup st.ch f) = false →
      visitQueryConditions (.each g f sep lt asn args) st =
        .ok (some (.node (eachExtra g f sep lt asn) (jsOr lt "and") []), st)) ∧
    (∀ (g : Guards) (f : String) (sep lt asn : Option String) (args rest : List QCond)
        (st : RState) (acc : List RNode),
      guardsPass g st.ch = true → optTruthy (alookup st.ch f) = false →
      goThroughArgs (.each g f sep lt asn args :: rest) st acc =
        goThroughArgs rest st acc) ∧
    (∀ (g : Guards) (f v : String) (sep lt asn : Option String) (args : List QCond)
        (st : RState),
      guardsPass g st.ch = true → alookup st.ch f = some v → v ≠ "" →
      visitQueryConditions (.each g f sep lt asn args) st =
        match goThroughArgsEach (jsSplit v (jsOr sep " ")) (jsOr asn (f ++ "Each"))
            args st [] with
        | .error e => .error e
        | .ok p =>
          .ok (some (.node (eachExtra g f sep lt asn) (jsOr lt "and") p.1), p.2)) ∧
    (∀ (tok : String) (toks : List String) (k : String) (args : List QCond)
        (st : RState) (acc : List RNode),
      goThroughArgsEach (tok :: toks) k args st acc =
        match goThroughArgs args ⟨(k, tok) :: st.ch, k :: st.af⟩ acc with
        | .error e => .error e
        | .ok p => goThroughArgsEach toks k args p.2 p.1) ∧
    _resolveQueryConditions eachDemoTemplate [("words", "a b c")] ["words"] =
      .ok (some eachDemoResolved) := by
  refine ⟨?_, ?_, ?_, ?_, ?_⟩
  · intro g f sep lt asn args st hg hv
    rw [visitQueryConditions]
    simp only [QCond.guards, hg, if_true, hv]
    simp
  · intro g f sep lt asn args rest st acc hg hv
    have h1 : visitQueryConditions (.each g f sep lt asn args) st =
        .ok (some (.node (eachExtra g f sep lt asn) (jsOr lt "and") []), st) := by
      rw [visitQueryConditions]
      simp only [QCond.guards, hg, if_true, hv]
      simp
    rw [goThroughArgs]
    rw [h1]
    simp [QCond.isCompositeType]
  · intro g f v sep lt asn args st hg hch hne
    rw [visitQueryConditions]
    simp only [QCond.guards, hg, if_true, hch, optTruthy, strTruthy, Option.getD]
    simp only [bne_iff_ne, ne_eq, hne, not_false_eq_true, if_true]
    cases goThroughArgsEach (jsSplit v (jsOr sep " ")) (jsOr asn (f ++ "Each")) args st []
      with
    | error e => rfl
    | ok p => cases p; rfl
  · intro tok toks k args st acc
    rw [goThroughArgsEach]
    cases goThroughArgs args ⟨(k, tok) :: st.ch, k :: st.af⟩ acc with
    | error e => rfl
    | ok p => cases p; rfl
  · simp [_resolveQueryConditions, visitQueryConditions, goThroughArgs, goThroughArgsEach,
      resolveArgs, guardsPass, alookup, afHas, optTruthy, strTruthy, jsOr, isSubstRef,
      substField, eachExtra, logicExtra, eachDemoTemplate, eachDemoResolved,
      QCond.guards, QCond.isCompositeType, jsSplit, jsSplitAux]

theorem c8_each_fanout_witness :
    visitQueryConditions (.each {} "absent" none none none []) ⟨[], []⟩ =
      .ok (some (.node (eachExtra {} "absent" none none none) "and" []), ⟨[], []⟩) ∧
    goThroughArgs [.each {} "absent" none none none []] ⟨[], []⟩ [] =
      .ok ([], ⟨[], []⟩) ∧
    _resolveQueryConditions eachDemoTemplate [("words", "a b c")] ["words"] =
      .ok (some eachDemoResolved) := by
  refine ⟨?_, ?_, c8_each_fanout.2.2.2.2⟩
  · have h := c8_each_fanout.1 {} "absent" none none none [] ⟨[], []⟩ rfl rfl
    exact h.trans (by rfl)
  · have h := c8_each_fanout.2.1 {} "absent" none none none [] [] ⟨[], []⟩ [] rfl rfl
    exact h.trans (by rw [goThroughArgs])

/-- Claim C9: the resolver neither mutates its `filterValues`
(`conditionsHash`) nor its `allowedFields` argument — the caller-visible
objects after a call equal the ones passed in, because the source rebinds both
parameters to private deep copies before any write — and resolving again with
the returned objects yields the same tree; meanwhile the internal traversal
state genuinely grows when `each` injects synthetic bindings, so the copies are
load-bearing. -/
theorem c9_resolver_purity :
    (∀ (qc : QCond) (ch : List (String × String)) (af : List String),
      (resolveFull qc ch af).2.1 = ch ∧ (resolveFull qc ch af).2.2 = af) ∧
    (∀ (qc : QCond) (ch : List (String × String)) (af : List String),
      (resolveFull qc (resolveFull qc ch af).2.1 (resolveFull qc ch af).2.2).1 =
        (resolveFull qc ch af).1) ∧
    visitQueryConditions eachDemoTemplate ⟨[("words", "a b c")], ["words"]⟩ =
      .ok (some eachDemoResolved,
        ⟨[("wordsEach", "c"), ("wordsEach", "b"), ("wordsEach", "a"), ("words", "a b c")],
         ["wordsEach", "wordsEach", "wordsEach", "words"]⟩) ∧
    (⟨[("wordsEach", "c"), ("wordsEach", "b"), ("wordsEach", "a"), ("words", "a b c")],
      ["wordsEach", "wordsEach", "wordsEach", "words"]⟩ : RState) ≠
      ⟨[("words", "a b c")], ["words"]⟩ ∧
    resolveFull eachDemoTemplate [("words", "a b c")] ["words"] =
      (.ok (some eachDemoResolved), [("words", "a b c")], ["words"]) := by
  refine ⟨fun qc ch af => ⟨rfl, rfl⟩, fun qc ch af => rfl, ?_, by decide, ?_⟩
  · simp [visitQueryConditions, goThroughArgs, goThroughArgsEach,
      resolveArgs, guardsPass, alookup, afHas, optTruthy, strTruthy, jsOr, isSubstRef,
      substField, eachExtra, logicExtra, eachDemoTemplate, eachDemoResolved,
      QCond.guards, QCond.isCompositeType, jsSplit, jsSplitAux]
  · have h : _resolveQueryConditions eachDemoTemplate [("words", "a b c")] ["words"] =
        .ok (some eachDemoResolved) := by
      simp [_resolveQueryConditions, visitQueryConditions, goThroughArgs,
        goThroughArgsEach, resolveArgs, guardsPass, alookup, afHas, optTruthy, strTruthy,
        jsOr, isSubstRef, substField, eachExtra, logicExtra, eachDemoTemplate,
        eachDemoResolved, QCond.guards, QCond.isCompositeType, jsSplit, jsSplitAux]
    simp [resolveFull, h]

/-- Claim C1: in the update-or-create (`put`) pipeline, after schema validation
the fetch-one probe decides the branch: an absent record sets `putNew` and runs
the insert operation, a present record sets `putExisting` and runs the update
operation; `putNew` and `putExisting` are mutually exclusive; the permission
check appears exactly once in the event trace, after the probe and before the
insert or update.  The request handed to `checkPermissions` is the post-probe
request (`Cur.probedPutReq ...`), so permission logic can inspect the branch. -/
theorem c1_put_probe_branches {D : Type} (s : Cur.Store D) (req0 r1 : Cur.Req D)
    (msg : Option String)
    (hh : (!s.handlePut && req0.remote) = false)
    (h1 : Cur._checkParamIds s { req0 with doc := none } true = .ok r1)
    (h2 : (Cur.validatedPutReq s r1).2 = [])
    (h3 : s.checkPermissions (Cur.probedPutReq s (Cur.validatedPutReq s r1).1) "put" =
      (true, msg)) :
    ((Cur.probedPutReq s (Cur.validatedPutReq s r1).1).putNew =
      !(Cur.probedPutReq s (Cur.validatedPutReq s r1).1).putExisting) ∧
    (s.implementFetchOne (Cur.validatedPutReq s r1).1 = none →
      Cur._makePut s req0 =
        ([.checkParamIds, .validate, .fetchOne, .checkPermissions "put", .insert] ++
           Cur._repositionBasedOnOptions s
             (some (s.implementInsert (Cur.probedPutReq s (Cur.validatedPutReq s r1).1)))
             (Cur.probedPutReq s (Cur.validatedPutReq s r1).1).options.putBefore
             (Cur.probedPutReq s (Cur.validatedPutReq s r1).1).options.putDefaultPosition
             (Cur.probedPutReq s (Cur.validatedPutReq s r1).1).putExisting,
         .ok (some (s.implementInsert (Cur.probedPutReq s (Cur.validatedPutReq s r1).1))))) ∧
    (∀ d, s.implementFetchOne (Cur.validatedPutReq s r1).1 = some d →
      Cur._makePut s req0 =
        ([.checkParamIds, .validate, .fetchOne, .checkPermissions "put", .update] ++
           Cur._repositionBasedOnOptions s
             (some (s.implementUpdate (Cur.probedPutReq s (Cur.validatedPutReq s r1).1)))
             (Cur.probedPutReq s (Cur.validatedPutReq s r1).1).options.putBefore
             (Cur.probedPutReq s (Cur.validatedPutReq s r1).1).options.putDefaultPosition
             (Cur.probedPutReq s (Cur.validatedPutReq s r1).1).putExisting,
         .ok (some (s.implementUpdate (Cur.probedPutReq s (Cur.validatedPutReq s r1).1))))) := by
  refine ⟨by cases hp : s.implementFetchOne (Cur.validatedPutReq s r1).1 <;>
    simp [probedPutReq_putNew, probedPutReq_putExisting, hp], ?_, ?_⟩
  · intro hnone
    have hrem : ({ req0 with doc := none } : Cur.Req D).remote = req0.remote := rfl
    simp only [Cur._makePut, hrem, hh, Bool.false_eq_true, if_false, h1, h2, ne_eq,
      not_true_eq_false, probedPutReq_doc, hnone, h3, Bool.not_true, Bool.true_eq_false]
  · intro d hsome
    have hrem : ({ req0 with doc := none } : Cur.Req D).remote = req0.remote := rfl
    simp only [Cur._makePut, hrem, hh, Bool.false_eq_true, if_false, h1, h2, ne_eq,
      not_true_eq_false, probedPutReq_doc, hsome, h3, Bool.not_true, Bool.true_eq_false]

theorem c1_put_probe_branches_witness :
    Cur._makePut demoStore demoReq =
      ([.checkParamIds, .validate, .fetchOne, .checkPermissions "put", .insert],
       .ok (some 1)) ∧
    Cur._makePut demoStoreFound demoReq =
      ([.checkParamIds, .validate, .fetchOne, .checkPermissions "put", .update],
       .ok (some 2)) := by
  constructor
  · have h := (c1_put_probe_branches demoStore demoReq { demoReq with doc := none }
      none rfl rfl rfl rfl).2.1 rfl
    exact h.trans (by rfl)
  · have h := (c1_put_probe_branches demoStoreFound demoReq { demoReq with doc := none }
      none rfl rfl rfl rfl).2.2 5 rfl
    exact h.trans (by rfl)

/-- Claim C10: a delete pipeline ignores the value returned by the persistence
delete operation — replacing that collaborator does not change the run at all —
and a successful delete returns exactly the document fetched by the fetch-one
stage, with the delete operation recorded after the permission check. -/
theorem c10_delete_returns_prefetched_doc {D : Type} (s : Cur.Store D) (req0 : Cur.Req D) :
    (∀ g : Cur.Req D → Option D,
      Cur._makeDelete s req0 = Cur._makeDelete { s with implementDelete := g } req0) ∧
    (∀ r1, Cur._checkParamIds s { req0 with doc := none } true = .ok r1 →
      ∀ v, (Cur._makeDelete s req0).2 = .ok v → v = s.implementFetchOne r1) ∧
    (∀ r1, Cur._checkParamIds s { req0 with doc := none } true = .ok r1 →
      ∀ v, (Cur._makeDelete s req0).2 = .ok v →
        (Cur._makeDelete s req0).1 =
          [.checkParamIds, .fetchOne, .checkPermissions "delete", .deleteRecord]) := by
  refine ⟨fun g => rfl, ?_, ?_⟩
  · intro r1 h1 v hv
    simp only [Cur._makeDelete, h1] at hv
    by_cases hA : (!s.handleDelete && req0.remote) = true
    · rw [if_pos hA] at hv
      simp at hv
    · rw [if_neg hA] at hv
      cases hg : (s.checkPermissions { r1 with doc := s.implementFetchOne r1 } "delete").1
      · rw [hg] at hv
        simp at hv
      · rw [hg] at hv
        simp at hv
        exact hv.symm
  · intro r1 h1 v hv
    simp only [Cur._makeDelete, h1] at hv ⊢
    by_cases hA : (!s.handleDelete && req0.remote) = true
    · rw [if_pos hA] at hv
      simp at hv
    · rw [if_neg hA] at hv
      rw [if_neg hA]
      cases hg : (s.checkPermissions { r1 with doc := s.implementFetchOne r1 } "delete").1
      · rw [hg] at hv
        simp at hv
      · simp

theorem c10_delete_returns_prefetched_doc_witness :
    Cur._makeDelete demoStore demoReq =
      Cur._makeDelete { demoStore with implementDelete := fun _ => some 9 } demoReq ∧
    (none : Option Nat) = demoStore.implementFetchOne { demoReq with doc := none } :=
  ⟨(c10_delete_returns_prefetched_doc demoStore demoReq).1 _,
   (c10_delete_returns_prefetched_doc demoStore demoReq).2.1
     { demoReq with doc := none } rfl none rfl⟩

/-- Claim C4 (code bug): the getQuery pipeline is gated by `handleGet`, not by
its own `handleGetQuery` flag (line 499 of `jsonreststores.js`): a remote query
on a store with `handleGetQuery = true` but `handleGet = false` fails with
`NotImplemented` before any stage runs, while `handleGetQuery = false` alone
does not gate the verb at all.  The other four verbs are gated by their own
flag with an empty trace (before identity validation), and a non-remote call
ignores every handle flag. -/
theorem c4_getquery_gated_by_wrong_flag :
    Cur._makeGetQuery { demoStore with handleGet := false, handleGetQuery := true }
      demoReq = ([], .error .notImplemented) ∧
    (Cur._makeGetQuery { demoStore with handleGet := true, handleGetQuery := false }
      demoReq).2 = .ok [] ∧
    Cur._makePost { demoStore with handlePost := false } demoReq =
      ([], .error .notImplemented) ∧
    Cur._makePut { demoStore with handlePut := false } demoReq =
      ([], .error .notImplemented) ∧
    Cur._makeGet { demoStore with handleGet := false } demoReq =
      ([], .error .notImplemented) ∧
    Cur._makeDelete { demoStore with handleDelete := false } demoReq =
      ([], .error .notImplemented) ∧
    (Cur._makeGet demoStoreNoFlags { demoReq with remote := false }).2 = .ok none ∧
    (Cur._makePost demoStoreNoFlags { demoReq with remote := false }).2 = .ok (some 1) :=
  ⟨rfl, rfl, rfl, rfl, rfl, rfl, rfl, rfl⟩

/-- Claim C5 (code bug): in the current pipelines, a fetch-one that returns no
document does NOT raise `NotFound`: `_makeGet` runs the permission check with a
null document and returns success with a null document, and `_makeDelete`
likewise proceeds all the way to the persistence delete operation against the
missing record. -/
theorem c5_missing_record_not_notfound :
    Cur._makeGet demoStore demoReq =
      ([.checkParamIds, .fetchOne, .checkPermissions "get"], .ok none) ∧
    Cur._makeDelete demoStore demoReq =
      ([.checkParamIds, .fetchOne, .checkPermissions "delete", .deleteRecord], .ok none) :=
  ⟨rfl, rfl⟩

/-- Claim C6 (code bug): `_areFieldsUnique` does accumulate one
`{ field, message }` entry per conflicting unique field, but its error branch
returns `allUnique: true` (line 475, contradicting its own comment), so the
`_makePost` uniqueness gate never fires: a post whose unique field conflicts in
the database sails past the gate and is inserted. -/
theorem c6_unique_conflict_not_rejected :
    Mid._areFieldsUnique demoMidStore none [("email", "a@b")] =
      { allUnique := true, errors := [⟨"email", "Field already in database"⟩] } ∧
    (Mid._areFieldsUnique
      { demoMidStore with schemaStructure :=
          [("id", {}), ("email", { unique := true }), ("nick", { unique := true })] }
      none [("email", "a@b"), ("nick", "kim")]).errors =
      [⟨"email", "Field already in database"⟩, ⟨"nick", "Field already in database"⟩] ∧
    Mid._makePost { demoMidStore with checkPermissions := fun _ _ => .obj true none }
      { remote := true, params := [("id", "1")], body := [("id", "1"), ("email", "a@b")] } =
      ([.checkParamIds, .validate, .uniqueCheck, .checkPermissions "post", .insert],
       .ok 7) :=
  ⟨rfl, rfl, rfl⟩

/-- Claim C7 (code bug): in the current pipelines `checkPermissions` is invoked
unconditionally — a non-remote get with a denying implementation is rejected
with `Forbidden` carrying the message, instead of being granted without
consulting the check; and in the intermediate generation a non-remote post with
the stock permissions also fails `Forbidden`, because `_checkPermissionsProxy`
returns the bare boolean `true` whose destructured `granted` property is
undefined.  The remote denial path does carry the message as claimed. -/
theorem c7_local_calls_not_exempt_from_permissions :
    Cur._makeGet { demoStore with checkPermissions := fun _ _ => (false, some "denied") }
      { demoReq with remote := false } =
      ([.checkParamIds, .fetchOne, .checkPermissions "get"],
       .error (.forbidden (some "denied"))) ∧
    Mid._makePost demoMidStore
      { remote := false, params := [("id", "1")], body := [("id", "1")] } =
      ([.checkParamIds, .validate, .uniqueCheck, .checkPermissions "post"],
       .error (.forbidden none)) ∧
    Cur._makeGet { demoStore with checkPermissions := fun _ _ => (false, some "denied") }
      demoReq =
      ([.checkParamIds, .fetchOne, .checkPermissions "get"],
       .error (.forbidden (some "denied"))) :=
  ⟨rfl, rfl, rfl⟩

end JRS
